import Mathlib

/-!
# Verification of the Oryx equipment-loss scraper core

Shallow embedding of the parsing and aggregation core of the
`oryx-wat-scraper` repository:

* `src/oryx_wat_scraper/client.py` — `OryxScraper.parse_equipment_line`,
  `scrape_equipment_entries` (loop body over structural blocks),
  `generate_daily_count_csv`, `generate_totals_by_type_csv`;
* `src/oryx_wat_scraper/models.py` — `EquipmentEntry`;
* `src/scraper.py` — the duplicated copies of the same functions.

Python regular expressions used by the source are embedded as executable
character-list matchers that reproduce the backtracking semantics of the
concrete patterns (verified against CPython `re` on the relevant inputs).
Strings are `String`/`List Char`; machine-independent `Nat` models Python
integers; Python's `defaultdict`-with-KeyError behaviour in the
aggregators is modelled with `Option`.
-/

/-! ## Character-level helpers (Python `\s`, `\d`, `str.strip`, `str.lower`) -/

/-- Python `\s` on ASCII: space, tab, newline, carriage return,
vertical tab, form feed. -/
def pySpace (c : Char) : Bool :=
  c = ' ' || c = '\t' || c = '\n' || c = '\r' || c = '\x0b' || c = '\x0c'

/-- Python `\d` (ASCII decimal digits). -/
def pyDigit (c : Char) : Bool :=
  '0' ≤ c && c ≤ '9'

/-- Numeric value of a digit string (Python `int(...)` on a `\d+` match). -/
def digitsVal (cs : List Char) : Nat :=
  cs.foldl (fun a c => 10 * a + (c.toNat - '0'.toNat)) 0

/-- Python `str.strip()`: remove leading and trailing whitespace. -/
def stripChars (cs : List Char) : List Char :=
  ((cs.dropWhile pySpace).reverse.dropWhile pySpace).reverse

/-- Python `str.lower()` (ASCII case folding suffices for the source's data). -/
def lowerChars (cs : List Char) : List Char :=
  cs.map Char.toLower

/-- `cs.dropWhile pySpace`: the `\s*` of a Python pattern when the following
atom cannot match a whitespace character (so no backtracking is possible). -/
def skipWs (cs : List Char) : List Char :=
  cs.dropWhile pySpace

/-- List prefix test (used for Python `str.startswith` and substring search). -/
def listPre : List Char → List Char → Bool
  | [], _ => true
  | _ :: _, [] => false
  | a :: as, b :: bs => a = b && listPre as bs

/-- Python's `needle in haystack` substring test. -/
def isSubstr (needle : List Char) : List Char → Bool
  | [] => needle.isEmpty
  | c :: rest => listPre needle (c :: rest) || isSubstr needle rest

/-! ## The item-declaration pattern `^(\d+)\s+(.+?)\s*:`

`re.match` of the pattern against a line.  `\d+` is forced to the maximal
digit run (the following `\s` cannot match a digit); `\s+` is greedy with
backtracking; `(.+?)` is lazy and cannot cross `'\n'`; `\s*:` succeeds at a
position iff the first non-whitespace character from there is `':'`. -/

/-- `\s*:` at this position (no backtracking possible: `':'` is not
whitespace, so only the full whitespace run can precede it). -/
def afterWsColon (cs : List Char) : Bool :=
  match skipWs cs with
  | ':' :: _ => true
  | _ => false

/-- The lazy group `(.+?)` followed by `\s*:`: the shortest non-empty
newline-free prefix whose remainder passes `afterWsColon`. -/
def lazyName : List Char → Option (List Char)
  | [] => none
  | c :: rest =>
    if c = '\n' then none
    else if afterWsColon rest then some [c]
    else match lazyName rest with
      | some g => some (c :: g)
      | none => none

/-- Greedy `\s*` before the lazy group, with backtracking: prefer to consume
more whitespace; on failure of the rest of the pattern, retry consuming
less. -/
def wsStarName : List Char → Option (List Char)
  | [] => none
  | c :: rest =>
    if pySpace c then
      match wsStarName rest with
      | some g => some g
      | none => lazyName (c :: rest)
    else lazyName (c :: rest)

/-- `re.match(r"^(\d+)\s+(.+?)\s*:", line)`: returns
`(int(group 1), group 2)` on success (group 2 *not* yet stripped). -/
def itemMatch (cs : List Char) : Option (Nat × List Char) :=
  let ds := cs.takeWhile pyDigit
  if ds.isEmpty then none
  else
    match cs.dropWhile pyDigit with
    | [] => none
    | c :: rest =>
      if pySpace c then
        match wsStarName rest with
        | some g => some (digitsVal ds, g)
        | none => none
      else none

/-! ## Case-insensitive literal words and the four status words -/

/-- Case-insensitive literal match (`re.IGNORECASE`): returns the raw
matched characters and the remainder. -/
def tryWordCI (w cs : List Char) : Option (List Char × List Char) :=
  if (cs.take w.length).map Char.toLower = w && w.length ≤ cs.length then
    some (cs.take w.length, cs.drop w.length)
  else none

/-- The alternation `(destroyed|captured|abandoned|damaged)` under
`re.IGNORECASE`, tried in the source's order; returns the raw matched
text (group value) and the remainder. -/
def tryStatus (cs : List Char) : Option (List Char × List Char) :=
  match tryWordCI "destroyed".data cs with
  | some r => some r
  | none =>
    match tryWordCI "captured".data cs with
    | some r => some r
    | none =>
      match tryWordCI "abandoned".data cs with
      | some r => some r
      | none => tryWordCI "damaged".data cs

/-! ## The plain-text marker pattern
`\((\d+(?:\s*,\s*\d+)*)\s*,\s*(destroyed|captured|abandoned|damaged)\)`
with `re.IGNORECASE`, scanned with `re.finditer`.

Backtracking analysis: inside the group, each `\d+` is a maximal digit run
(followed by `\s`/`,`), each `\s*` is maximal (the next atom is `,`, a
digit, or a status letter, none of which is whitespace), and after
`\s*,\s*` a digit forces another repetition of the group while a letter
forces the status alternation — the continuations are mutually exclusive,
so the scan is deterministic.  The numbers themselves are discarded by the
source (`len(re.findall(r"\d+", numbers_str))`), so only their count is
returned: each `\d+` inside group 1 is a maximal digit run separated by
commas, hence `findall` recovers exactly the runs this loop consumed. -/

/-- Greedy repetition `(?:\s*,\s*\d+)*`: consume further `, <digits>` units,
accumulating their count on top of `k`.  `fuel` only serves termination;
`fuel = cs.length` always suffices since every unit consumes at least two
characters of `cs`. -/
def unitsLoop : Nat → Nat → List Char → Nat × List Char
  | 0, k, cs => (k, cs)
  | fuel + 1, k, cs =>
    match skipWs cs with
    | ',' :: cs₂ =>
      match skipWs cs₂ with
      | d :: _ =>
        if pyDigit d then unitsLoop fuel (k + 1) ((skipWs cs₂).dropWhile pyDigit)
        else (k, cs)
      | [] => (k, cs)
    | _ => (k, cs)

/-- The tail of a marker-group match after the numbers: `\s*,\s*` then the
status alternation then `')'`. -/
def statusTail (k : Nat) (cs : List Char) : Option (Nat × List Char × List Char) :=
    match skipWs cs with
    | ',' :: cs₄ =>
      match tryStatus (skipWs cs₄) with
      | some (raw, cs₆) =>
        match cs₆ with
        | c :: cs₇ => if c = ')' then some (k, raw, cs₇) else none
        | [] => none
      | none => none
    | _ => none

/-- One attempted match of the status pattern at the position just after an
opening `'('`: returns (count of numbers in group 1, raw status text,
remainder after the closing `')'`). -/
def statusAttempt (cs : List Char) : Option (Nat × List Char × List Char) :=
  match cs with
  | d :: ds =>
    if pyDigit d then
      match unitsLoop ((d :: ds).dropWhile pyDigit).length 1 ((d :: ds).dropWhile pyDigit) with
      | (k, cs₂) => statusTail k cs₂
    else none
  | [] => none

/-- `re.finditer` of the status pattern over a line: scan left to right,
attempt a match at every `'('`, emit `(count, raw status)` and resume after
the match (non-overlapping), else advance one character.  The fuel is only
a structural-termination device: `statusAttempt` never lengthens the
remainder (`statusAttempt_len_le`), so `fuel = cs.length` always reaches
the end of the input (see `scanGroupsF_fuel`). -/
def scanGroupsF : Nat → List Char → List (Nat × List Char)
  | 0, _ => []
  | fuel + 1, cs =>
    match cs with
    | [] => []
    | c :: rest =>
      if c = '(' then
        match statusAttempt rest with
        | some (k, raw, rem) => (k, raw) :: scanGroupsF fuel rem
        | none => scanGroupsF fuel rest
      else scanGroupsF fuel rest

/-- The status-pattern `finditer` scan of a whole line. -/
def scanGroups (cs : List Char) : List (Nat × List Char) :=
  scanGroupsF cs.length cs

/-! ## The markup link pattern
`<a[^>]*href="([^"]*)"[^>]*>\((\d+),\s*(destroyed|captured|abandoned|damaged)\)</a>`
with `re.IGNORECASE`, scanned with `re.finditer`.

Backtracking analysis: the only true backtracking point is the first
`[^>]*`, which under greedy semantics selects the *rightmost* occurrence
of `href="` (case-insensitive) before the first `'>'` for which the rest
of the pattern succeeds.  `([^"]*)"` is forced (maximal quote-free run,
then the quote must follow), `[^>]*>` likewise, `(\d+),` likewise, and
`\s*` before the status word is forced because no status word starts with
whitespace. -/

/-- The literal `href="` (matched case-insensitively). -/
def hrefLit : List Char := "href=\"".data

/-- Candidate remainders: for every occurrence of `href="` (CI) that is
preceded, within the part of the input before the first `'>'`, only by
non-`'>'` characters, the text following the occurrence — in left-to-right
order. -/
def hrefCandidates : List Char → List (List Char)
  | [] => []
  | c :: rest =>
    if c = '>' then []
    else
      match tryWordCI hrefLit (c :: rest) with
      | some (_, rem) => rem :: hrefCandidates rest
      | none => hrefCandidates rest

/-- The rest of the link pattern after `href="`:
`([^"]*)"[^>]*>\((\d+),\s*(status)\)</a>`.  Returns
(group 1 = link target, raw status text, remainder after `</a>`). -/
def afterHref (cs : List Char) : Option (List Char × List Char × List Char) :=
  match cs.dropWhile (fun c => c != '"') with
  | '"' :: r₂ =>
    match r₂.dropWhile (fun c => c != '>') with
    | '>' :: r₄ =>
      match r₄ with
      | '(' :: r₅ =>
        match r₅ with
        | d :: _ =>
          if pyDigit d then
            match r₅.dropWhile pyDigit with
            | ',' :: r₇ =>
              match tryStatus (skipWs r₇) with
              | some (raw, r₉) =>
                match r₉ with
                | ')' :: r₁₀ =>
                  match tryWordCI "</a>".data r₁₀ with
                  | some (_, r₁₁) => some (cs.takeWhile (fun c => c != '"'), raw, r₁₁)
                  | none => none
                | _ => none
              | none => none
            | _ => none
          else none
        | [] => none
      | _ => none
    | _ => none
  | _ => none

/-- First successful application of `f` along a list (the backtracking
search over `[^>]*` candidates, tried longest-prefix-first by reversing
`hrefCandidates`). -/
def firstSome {α β : Type} (f : α → Option β) : List α → Option β
  | [] => none
  | a :: as =>
    match f a with
    | some b => some b
    | none => firstSome f as

/-- One attempted match of the link pattern at the position just after
`<a` (CI): greedy `[^>]*` tries the rightmost `href="` first. -/
def linkAttempt (cs : List Char) : Option (List Char × List Char × List Char) :=
  firstSome afterHref (hrefCandidates cs).reverse

/-- `re.finditer` of the link pattern over the raw markup: attempt at every
`<a` (CI), emit `(link target, raw status)` and resume after the match,
else advance one character.  Fuel as in `scanGroupsF`. -/
def scanLinksF : Nat → List Char → List (List Char × List Char)
  | 0, _ => []
  | fuel + 1, cs =>
    match cs with
    | [] => []
    | c :: rest =>
      if c = '<' then
        match rest with
        | a :: rest₂ =>
          if a.toLower = 'a' then
            match linkAttempt rest₂ with
            | some (url, raw, rem) => (url, raw) :: scanLinksF fuel rem
            | none => scanLinksF fuel rest
          else scanLinksF fuel rest
        | [] => []
      else scanLinksF fuel rest

/-- The link-pattern `finditer` scan of a whole markup line. -/
def scanLinks (cs : List Char) : List (List Char × List Char) :=
  scanLinksF cs.length cs

/-! ## The category-header pattern `^([^(]+?)\s*\((\d+)`

`re.search` with an anchored pattern matches only at position 0.  The lazy
group `[^(]+?` takes the shortest non-empty `'('`-free prefix after which
`\s*\(` and a digit follow; `\s*\(` succeeds at a position iff the first
non-whitespace character from there is `'('` followed by a digit. -/

/-- `\s*\((\d+)` at this position. -/
def openParenDigit (cs : List Char) : Bool :=
  match skipWs cs with
  | '(' :: d :: _ => pyDigit d
  | _ => false

/-- The lazy group `([^(]+?)` followed by `\s*\((\d+)`. -/
def lazyCat : List Char → Option (List Char)
  | [] => none
  | c :: rest =>
    if c = '(' then none
    else if openParenDigit rest then some [c]
    else match lazyCat rest with
      | some g => some (c :: g)
      | none => none

/-- `re.search(r"^([^(]+?)\s*\((\d+)", text, re.IGNORECASE)`: group 1 on
success (not yet stripped). -/
def catMatch (cs : List Char) : Option (List Char) :=
  lazyCat cs

/-! ## Data model (`src/oryx_wat_scraper/models.py`, `EquipmentEntry`)

The dataclass has exactly the five fields below — in particular it has no
count field: one entry stands for one physical unit.  (`src/scraper.py`
declares a character-for-character identical dataclass; one Lean structure
embeds both.) -/

/-- Python `str.lower()` at `String` level (kernel-reducible). -/
def lowerStr (s : String) : String := ⟨lowerChars s.data⟩

/-- `EquipmentEntry` from `models.py` / `scraper.py`. -/
structure EquipmentEntry where
  country : String
  equipment_type : String
  status : String
  url : Option String := none
  date_recorded : Option String := none
deriving Repr, DecidableEq

/-! ## `parse_equipment_line` (client.py lines 82–163)

`self.current_date` is passed explicitly as `current_date`.  The `category`
argument is accepted and ignored, exactly as in the source.  Python's
`if html_line:` is falsy for both `None` and `""`. -/

/-- The markup tier (client.py lines 104–123): one entry per link-pattern
match, in scan order; the link target is kept only when
`url.startswith("http")`. -/
def markupTier (current_date country equipment_name : String)
    (html_line : Option String) : List EquipmentEntry :=
  match html_line with
  | none => []
  | some h =>
    if h = "" then []
    else
      (scanLinks h.data).map fun m =>
        { country := lowerStr country
          equipment_type := equipment_name
          status := ⟨lowerChars m.2⟩
          url := if listPre "http".data m.1 then some ⟨m.1⟩ else none
          date_recorded := some current_date }

/-- The plain-text tier (client.py lines 125–149): each status-pattern
match with `k` numbers in group 1 contributes `k` entries of its
(lower-cased) status, with no source reference. -/
def textTier (current_date country equipment_name : String)
    (line : String) : List EquipmentEntry :=
  (scanGroups line.data).flatMap fun m =>
    List.replicate m.1
      { country := lowerStr country
        equipment_type := equipment_name
        status := ⟨lowerChars m.2⟩
        url := none
        date_recorded := some current_date }

/-- `OryxScraper.parse_equipment_line` (client.py lines 82–163): the
item-shape check, then the three tiers with the source's
`if not entries` chaining and the `total_count > 0` fallback. -/
def parse_equipment_line (current_date line country category : String)
    (html_line : Option String) : List EquipmentEntry :=
  match itemMatch (stripChars line.data) with
  | none => []
  | some (total_count, g₂) =>
    let equipment_name : String := ⟨stripChars g₂⟩
    let entries₁ := markupTier current_date country equipment_name html_line
    let entries₂ :=
      if entries₁.isEmpty then textTier current_date country equipment_name line
      else entries₁
    if entries₂.isEmpty && decide (0 < total_count) then
      List.replicate total_count
        { country := lowerStr country
          equipment_type := equipment_name
          status := "destroyed"
          url := none
          date_recorded := some current_date }
    else entries₂

/-! ## The section scanner (`scrape_equipment_entries`, client.py lines 184–226)

Fetching and BeautifulSoup parsing are external collaborators; the loop
body operates on the flattened sequence of structural blocks, each block
contributing its visible text (`element.get_text(strip=True)`) and its raw
markup (`str(element)`).  A block is modelled as that pair.  The loop
state is the pair `(in_country_section, current_category)`;
`current_category` starts as Python `None` and is truthy only when it is a
non-empty string.  `break` is modelled by returning the accumulated-so-far
entries, i.e. by stopping the recursion. -/

/-- One structural block of the document. -/
structure Block where
  text : String
  html : String
deriving Repr, DecidableEq

/-- The per-block loop of `scrape_equipment_entries` (client.py lines
190–224), with state `(in_country_section, current_category)`. -/
def scanGo (current_date country country_lower : String) :
    Bool → Option String → List Block → List EquipmentEntry
  | _, _, [] => []
  | inSec, cat, b :: rest =>
    if b.text = "" then scanGo current_date country country_lower inSec cat rest
    else if isSubstr country_lower.data (lowerChars b.text.data) &&
        (isSubstr "total".data (lowerChars b.text.data) ||
         isSubstr "losses".data (lowerChars b.text.data)) then
      scanGo current_date country country_lower true cat rest
    else if inSec &&
        ((isSubstr "ukraine".data (lowerChars b.text.data) && country_lower = "russia") ||
         (isSubstr "russia".data (lowerChars b.text.data) && country_lower = "ukraine")) then
      []
    else
      match catMatch b.text.data with
      | some g => scanGo current_date country country_lower inSec (some ⟨stripChars g⟩) rest
      | none =>
        match cat with
        | some c =>
          if inSec && !(c = "") then
            match itemMatch b.text.data with
            | some _ =>
              parse_equipment_line current_date b.text country c (some b.html) ++
                scanGo current_date country country_lower inSec cat rest
            | none => scanGo current_date country country_lower inSec cat rest
          else scanGo current_date country country_lower inSec cat rest
        | none => scanGo current_date country country_lower inSec cat rest

/-- `scrape_equipment_entries` restricted to its pure part: the section
scan over the block sequence (content lookup and fetching are external). -/
def scrape_equipment_entries (current_date country : String)
    (blocks : List Block) : List EquipmentEntry :=
  scanGo current_date country (lowerStr country) false none blocks

/-! ## Aggregators (client.py lines 228–287)

Both functions fold the entry list through a
`defaultdict(lambda: {"destroyed": 0, "abandoned": 0, "captured": 0, "damaged": 0})`
keyed by `(country, equipment_type, date)` resp. `(country, equipment_type)`,
then emit one row per key in first-insertion order, with the total computed
as `sum(counts.values())` at read time.  `grouped[key][entry.status] += 1`
raises `KeyError` when `entry.status` is not one of the four statuses (the
inner dict is a plain dict); this is modelled by `Option`.
`entry.date_recorded or self.current_date` treats both `None` and `""` as
falsy. -/

/-- The four per-status counters of one group. -/
structure Counts where
  destroyed : Nat
  abandoned : Nat
  captured : Nat
  damaged : Nat
deriving Repr, DecidableEq

/-- The `defaultdict` initial value. -/
def counts0 : Counts := ⟨0, 0, 0, 0⟩

/-- Membership of a status string in the inner dict's key set. -/
def statusOk (s : String) : Bool :=
  s = "destroyed" || s = "abandoned" || s = "captured" || s = "damaged"

/-- `counts[status] += 1` for a status in the key set (the only case in
which the Python expression does not raise). -/
def incC (c : Counts) (s : String) : Counts :=
  if s = "destroyed" then { c with destroyed := c.destroyed + 1 }
  else if s = "abandoned" then { c with abandoned := c.abandoned + 1 }
  else if s = "captured" then { c with captured := c.captured + 1 }
  else if s = "damaged" then { c with damaged := c.damaged + 1 }
  else c

/-- `grouped[key][status] += 1` on an insertion-ordered association list:
update in place when the key exists, else append at the end (a
`defaultdict` inserts the key at first access). -/
def updA {κ : Type} [DecidableEq κ] :
    List (κ × Counts) → κ → String → List (κ × Counts)
  | [], k, s => [(k, incC counts0 s)]
  | (k', c) :: rest, k, s =>
    if k' = k then (k', incC c s) :: rest
    else (k', c) :: updA rest k s

/-- The grouping loop shared by both aggregators: process entries in order,
failing (Python `KeyError`) on a status outside the key set. -/
def aggGo {κ : Type} [DecidableEq κ] (keyF : EquipmentEntry → κ) :
    List (κ × Counts) → List EquipmentEntry → Option (List (κ × Counts))
  | acc, [] => some acc
  | acc, e :: rest =>
    if statusOk e.status then aggGo keyF (updA acc (keyF e) e.status) rest
    else none

/-- `entry.date_recorded or self.current_date`. -/
def dateOr (current_date : String) (e : EquipmentEntry) : String :=
  match e.date_recorded with
  | some s => if s = "" then current_date else s
  | none => current_date

/-- Grouping key of `generate_daily_count_csv`. -/
def dailyKey (current_date : String) (e : EquipmentEntry) :
    String × String × String :=
  (e.country, e.equipment_type, dateOr current_date e)

/-- Grouping key of `generate_totals_by_type_csv`. -/
def typeKey (e : EquipmentEntry) : String × String :=
  (e.country, e.equipment_type)

/-- One row of `daily_count.csv`. -/
structure DailyRow where
  country : String
  equipment_type : String
  destroyed : Nat
  abandoned : Nat
  captured : Nat
  damaged : Nat
  type_total : Nat
  date_recorded : String
deriving Repr, DecidableEq

/-- One row of `totals_by_type.csv`. -/
structure TypeRow where
  country : String
  type : String
  destroyed : Nat
  abandoned : Nat
  captured : Nat
  damaged : Nat
  total : Nat
deriving Repr, DecidableEq

/-- Row construction of `generate_daily_count_csv`
(`total = sum(counts.values())` at read time). -/
def dailyRowOf (p : (String × String × String) × Counts) : DailyRow :=
  { country := p.1.1
    equipment_type := p.1.2.1
    destroyed := p.2.destroyed
    abandoned := p.2.abandoned
    captured := p.2.captured
    damaged := p.2.damaged
    type_total := p.2.destroyed + p.2.abandoned + p.2.captured + p.2.damaged
    date_recorded := p.1.2.2 }

/-- Row construction of `generate_totals_by_type_csv`. -/
def typeRowOf (p : (String × String) × Counts) : TypeRow :=
  { country := p.1.1
    type := p.1.2
    destroyed := p.2.destroyed
    abandoned := p.2.abandoned
    captured := p.2.captured
    damaged := p.2.damaged
    total := p.2.destroyed + p.2.abandoned + p.2.captured + p.2.damaged }

/-- `OryxScraper.generate_daily_count_csv` (client.py lines 228–259). -/
def generate_daily_count_csv (current_date : String)
    (entries : List EquipmentEntry) : Option (List DailyRow) :=
  (aggGo (dailyKey current_date) [] entries).map (List.map dailyRowOf)

/-- `OryxScraper.generate_totals_by_type_csv` (client.py lines 261–287). -/
def generate_totals_by_type_csv (entries : List EquipmentEntry) :
    Option (List TypeRow) :=
  (aggGo typeKey [] entries).map (List.map typeRowOf)

/-! ## The duplicated module `src/scraper.py`

`src/scraper.py` carries its own copies of `EquipmentEntry` (embedded by
the same structure above, the dataclasses being character-for-character
identical), `parse_equipment_line` (lines 97–171) and
`generate_daily_count_csv` (lines 279–311).  Its regex literals are
identical to client.py's, so the same embedded matchers apply; the
function bodies below mirror scraper.py exactly as the ones above mirror
client.py. -/

namespace ScraperPy

/-- `OryxScraper.parse_equipment_line` from `src/scraper.py` lines 97–171. -/
def parse_equipment_line (current_date line country category : String)
    (html_line : Option String) : List EquipmentEntry :=
  match itemMatch (stripChars line.data) with
  | none => []
  | some (total_count, g₂) =>
    let equipment_name : String := ⟨stripChars g₂⟩
    let entries₁ := markupTier current_date country equipment_name html_line
    let entries₂ :=
      if entries₁.isEmpty then textTier current_date country equipment_name line
      else entries₁
    if entries₂.isEmpty && decide (0 < total_count) then
      List.replicate total_count
        { country := lowerStr country
          equipment_type := equipment_name
          status := "destroyed"
          url := none
          date_recorded := some current_date }
    else entries₂

/-- `OryxScraper.generate_daily_count_csv` from `src/scraper.py`
lines 279–311. -/
def generate_daily_count_csv (current_date : String)
    (entries : List EquipmentEntry) : Option (List DailyRow) :=
  (aggGo (dailyKey current_date) [] entries).map (List.map dailyRowOf)

end ScraperPy

/-! ## Observation functions for the aggregate tables

These are not part of the source; they are the formal-statement
vocabulary: looking a key up in the grouped association list or in a row
list, and the per-key multiset counts of an entry list. -/

/-- Key lookup in the insertion-ordered grouped association list. -/
def lookupPair {κ : Type} [DecidableEq κ] :
    List (κ × Counts) → κ → Option (κ × Counts)
  | [], _ => none
  | (k', c) :: rest, k => if k' = k then some (k', c) else lookupPair rest k

/-- Componentwise addition of counter records. -/
def addC (a b : Counts) : Counts :=
  ⟨a.destroyed + b.destroyed, a.abandoned + b.abandoned,
   a.captured + b.captured, a.damaged + b.damaged⟩

/-- The per-status counts of the entries of `es` whose key is `k`. -/
def cntOfF {κ : Type} [DecidableEq κ] (keyF : EquipmentEntry → κ)
    (es : List EquipmentEntry) (k : κ) : Counts :=
  { destroyed := es.countP (fun e => decide (keyF e = k) && decide (e.status = "destroyed"))
    abandoned := es.countP (fun e => decide (keyF e = k) && decide (e.status = "abandoned"))
    captured := es.countP (fun e => decide (keyF e = k) && decide (e.status = "captured"))
    damaged := es.countP (fun e => decide (keyF e = k) && decide (e.status = "damaged")) }

/-- The first daily-count row carrying the given
(country, equipment_type, date_recorded) key. -/
def findDailyRow : List DailyRow → (String × String × String) → Option DailyRow
  | [], _ => none
  | r :: rest, k =>
    if (r.country, r.equipment_type, r.date_recorded) = k then some r
    else findDailyRow rest k

/-- The first totals-by-type row carrying the given (country, type) key. -/
def findTypeRow : List TypeRow → (String × String) → Option TypeRow
  | [], _ => none
  | r :: rest, k =>
    if (r.country, r.type) = k then some r
    else findTypeRow rest k

/-! ## Supporting lemmas and concrete evaluations -/

theorem dropWhile_len_le (p : Char → Bool) (cs : List Char) :
    (cs.dropWhile p).length ≤ cs.length := by
  induction cs with
  | nil => simp
  | cons c rest ih =>
    by_cases h : p c
    · simp only [List.dropWhile_cons, h, if_true]
      exact Nat.le_succ_of_le ih
    · simp [List.dropWhile_cons, h]

theorem skipWs_len_le (cs : List Char) : (skipWs cs).length ≤ cs.length :=
  dropWhile_len_le pySpace cs

example : itemMatch "5 Tanks:".data = some (5, "Tanks".data) := by decide

example : itemMatch "12  :".data = some (12, [' ']) := by decide

example : itemMatch "12 :".data = none := by decide

example : itemMatch "hello".data = none := by decide

example : itemMatch "2 BMP-1: (1, captured)".data = some (2, "BMP-1".data) := by decide

theorem tryWordCI_spec {w cs m rest} (h : tryWordCI w cs = some (m, rest)) :
    m.map Char.toLower = w ∧ rest = cs.drop w.length := by
  unfold tryWordCI at h
  split at h
  · rename_i hcond
    simp only [Bool.and_eq_true, decide_eq_true_eq] at hcond
    cases h
    exact ⟨hcond.1, rfl⟩
  · cases h

theorem tryStatus_lower {cs m rest} (h : tryStatus cs = some (m, rest)) :
    m.map Char.toLower = "destroyed".data ∨ m.map Char.toLower = "captured".data ∨
    m.map Char.toLower = "abandoned".data ∨ m.map Char.toLower = "damaged".data := by
  unfold tryStatus at h
  repeat' split at h
  all_goals
    first
    | (cases h; rename_i hw; have hw2 := tryWordCI_spec hw; tauto)
    | (have hw2 := tryWordCI_spec h; tauto)
    | cases h

theorem tryStatus_len_le {cs m rest} (h : tryStatus cs = some (m, rest)) :
    rest.length ≤ cs.length := by
  have hdrop : ∀ (w : List Char), rest = cs.drop w.length → rest.length ≤ cs.length := by
    intro w hw
    subst hw
    simp
  unfold tryStatus at h
  repeat' split at h
  all_goals
    first
    | (cases h; rename_i hw; exact hdrop _ (tryWordCI_spec hw).2)
    | (exact hdrop _ (tryWordCI_spec h).2)
    | cases h

theorem unitsLoop_len_le : ∀ fuel k cs, (unitsLoop fuel k cs).2.length ≤ cs.length := by
  intro fuel
  induction fuel with
  | zero => intro k cs; simp [unitsLoop]
  | succ n ih =>
    intro k cs
    unfold unitsLoop
    split
    · rename_i cs₂ hc
      split
      · rename_i d rest hd
        split
        · calc (unitsLoop n (k+1) ((skipWs cs₂).dropWhile pyDigit)).2.length
              ≤ ((skipWs cs₂).dropWhile pyDigit).length := ih _ _
            _ ≤ (skipWs cs₂).length := dropWhile_len_le _ _
            _ ≤ cs₂.length := skipWs_len_le _
            _ ≤ (',' :: cs₂).length := by simp
            _ = (skipWs cs).length := by rw [hc]
            _ ≤ cs.length := skipWs_len_le _
        · simp
      · simp
    · simp

theorem statusTail_len_le {k : Nat} {cs : List Char} {k' raw rem}
    (h : statusTail k cs = some (k', raw, rem)) : rem.length ≤ cs.length := by
  have h4 : (skipWs cs).length ≤ cs.length := skipWs_len_le cs
  unfold statusTail at h
  split at h
  · rename_i cs₄ hc
    rw [hc] at h4
    split at h
    · rename_i raw' cs₆ hts
      have h1 : cs₆.length ≤ (skipWs cs₄).length := tryStatus_len_le hts
      have h2 : (skipWs cs₄).length ≤ cs₄.length := skipWs_len_le _
      split at h
      · split at h
        · cases h
          simp only [List.length_cons] at h1 h4 ⊢
          omega
        · cases h
      · cases h
    · cases h
  · cases h

theorem statusAttempt_len_le {cs : List Char} {k raw rem}
    (h : statusAttempt cs = some (k, raw, rem)) : rem.length ≤ cs.length := by
  unfold statusAttempt at h
  split at h
  · rename_i d ds
    split at h
    · split at h
      rename_i k₂ cs₂ hu
      have h1 := statusTail_len_le h
      have h2 := unitsLoop_len_le ((d :: ds).dropWhile pyDigit).length 1
        ((d :: ds).dropWhile pyDigit)
      rw [hu] at h2
      have h3 := dropWhile_len_le pyDigit (d :: ds)
      simp only at h2
      omega
    · cases h
  · cases h

theorem scanGroupsF_fuel : ∀ fuel fuel' cs, cs.length ≤ fuel → cs.length ≤ fuel' →
    scanGroupsF fuel cs = scanGroupsF fuel' cs := by
  intro fuel
  induction fuel using Nat.strong_induction_on with
  | _ fuel ih =>
    intro fuel' cs hf hf'
    cases cs with
    | nil => cases fuel <;> cases fuel' <;> simp [scanGroupsF]
    | cons c rest =>
      cases fuel with
      | zero => simp at hf
      | succ n =>
        cases fuel' with
        | zero => simp at hf'
        | succ n' =>
          simp only [List.length_cons] at hf hf'
          simp only [scanGroupsF]
          split
          · split
            · rename_i k raw rem ha
              have hr := statusAttempt_len_le ha
              rw [ih n (Nat.lt_succ_self _) n' rem (by omega) (by omega)]
            · rw [ih n (Nat.lt_succ_self _) n' rest (by omega) (by omega)]
          · rw [ih n (Nat.lt_succ_self _) n' rest (by omega) (by omega)]

example : scanGroups "3 T-64: (1, destroyed) (2, destroyed)".data =
    [(1, "destroyed".data), (1, "destroyed".data)] := by decide

example : scanGroups "x (1, 2, 3, damaged) y".data = [(3, "damaged".data)] := by decide

example : scanGroups "(1, 2)".data = [] := by decide

example : scanGroups "(1, 2, 3 destroyed)".data = [] := by decide

example : scanGroups "(1 , DESTROYED)".data = [(1, "DESTROYED".data)] := by decide

example : scanGroups "5 Tanks:".data = [] := by decide

theorem firstSome_mem {α β : Type} (f : α → Option β) :
    ∀ (l : List α) (b : β), firstSome f l = some b → ∃ a ∈ l, f a = some b := by
  intro l
  induction l with
  | nil => intro b h; cases h
  | cons a as ih =>
    intro b h
    unfold firstSome at h
    split at h
    · rename_i b' hb
      cases h
      exact ⟨a, List.mem_cons_self a as, hb⟩
    · obtain ⟨a', ha', hfa⟩ := ih b h
      exact ⟨a', List.mem_cons_of_mem a ha', hfa⟩

theorem hrefCandidates_len_le :
    ∀ cs r, r ∈ hrefCandidates cs → r.length ≤ cs.length := by
  intro cs
  induction cs with
  | nil => intro r h; cases h
  | cons c rest ih =>
    intro r h
    unfold hrefCandidates at h
    split at h
    · cases h
    · split at h
      · rename_i pr rem hw
        rw [List.mem_cons] at h
        rcases h with h | h
        · subst h
          have h2 := (tryWordCI_spec hw).2
          subst h2
          simp
        · exact Nat.le_succ_of_le (ih r h)
      · exact Nat.le_succ_of_le (ih r h)

theorem afterHref_len_le {cs : List Char} {url raw rem}
    (h : afterHref cs = some (url, raw, rem)) : rem.length ≤ cs.length := by
  unfold afterHref at h
  split at h
  · rename_i r₂ h₂
    have l₂ : ('"' :: r₂).length ≤ cs.length := by
      rw [← h₂]; exact dropWhile_len_le _ _
    split at h
    · rename_i r₄ h₄
      have l₄ : ('>' :: r₄).length ≤ r₂.length := by
        rw [← h₄]; exact dropWhile_len_le _ _
      split at h
      · rename_i r₅
        split at h
        · rename_i d ds
          split at h
          · split at h
            · rename_i r₇ h₇
              have l₇ : (',' :: r₇).length ≤ (d :: ds).length := by
                rw [← h₇]; exact dropWhile_len_le _ _
              split at h
              · rename_i raw' r₉ h₉
                have l₉ : r₉.length ≤ (skipWs r₇).length := tryStatus_len_le h₉
                have l₇b : (skipWs r₇).length ≤ r₇.length := skipWs_len_le _
                split at h
                · rename_i r₁₀
                  split at h
                  · rename_i pr r₁₁ hw
                    cases h
                    have hr := (tryWordCI_spec hw).2
                    subst hr
                    have : r₁₀.length - 4 ≤ r₁₀.length := Nat.sub_le _ _
                    simp only [List.length_cons, List.length_drop] at *
                    omega
                  · cases h
                · cases h
              · cases h
            · cases h
          · cases h
        · cases h
      · cases h
    · cases h
  · cases h

theorem linkAttempt_len_le {cs : List Char} {url raw rem}
    (h : linkAttempt cs = some (url, raw, rem)) : rem.length ≤ cs.length := by
  obtain ⟨t, ht, hf⟩ := firstSome_mem afterHref _ _ h
  rw [List.mem_reverse] at ht
  exact le_trans (afterHref_len_le hf) (hrefCandidates_len_le cs t ht)

example : scanLinks "<a href=\"http://x/1\">(1, damaged)</a>".data =
    [("http://x/1".data, "damaged".data)] := by decide

example : scanLinks "<a href=\"x/1\">(1, damaged)</a>".data =
    [("x/1".data, "damaged".data)] := by decide

example : scanLinks "<a href=\"a\" href=\"b\">(1, destroyed)</a>".data =
    [("b".data, "destroyed".data)] := by decide

example : scanLinks "<a>(1, destroyed)</a>".data = [] := by decide

example : scanLinks "<A HREF=\"HTTP://Q\">(2, DESTROYED)</A>".data =
    [("HTTP://Q".data, "DESTROYED".data)] := by decide

example : scanLinks "<li>5 T-62:</li>".data = [] := by decide

example : catMatch "Tanks (10".data = some "Tanks".data := by decide

example : catMatch "154 T-62M: (1, destroyed)".data = some "154 T-62M:".data := by decide

example : catMatch "5 T-62:".data = none := by decide

example : catMatch " (5".data = some [' '] := by decide

example : catMatch "ab (x(5".data = none := by decide

example :
    parse_equipment_line "D" "2 BMP-1: (1, captured)" "russia" "IFV" none =
      [{ country := "russia", equipment_type := "BMP-1", status := "captured",
         url := none, date_recorded := some "D" }] := by decide

example :
    parse_equipment_line "D" "5 Tanks:" "russia" "Tanks" none =
      List.replicate 5
        { country := "russia", equipment_type := "Tanks", status := "destroyed",
          url := none, date_recorded := some "D" } := by decide

example :
    (parse_equipment_line "D" "3 T-64: (1, destroyed) (2, destroyed)" "russia" "Tanks"
      none).length = 2 := by decide

example :
    parse_equipment_line "D" "1 T-90: x" "Russia" "Tanks"
        (some "<a href=\"http://x/1\">(1, damaged)</a>") =
      [{ country := "russia", equipment_type := "T-90", status := "damaged",
         url := some "http://x/1", date_recorded := some "D" }] := by decide

example :
    parse_equipment_line "D" "1 T-90: x" "russia" "Tanks"
        (some "<a href=\"x/1\">(1, damaged)</a>") =
      [{ country := "russia", equipment_type := "T-90", status := "damaged",
         url := none, date_recorded := some "D" }] := by decide

example :
    (parse_equipment_line "D" "12  :" "russia" "Tanks" none).map
      (fun e => e.equipment_type) = List.replicate 12 "" := by decide

example : parse_equipment_line "D" "hello" "russia" "Tanks" none = [] := by decide

example : parse_equipment_line "D" "0 Tank:" "russia" "Tanks" none = [] := by decide

example :
    scrape_equipment_entries "D" "russia"
      [⟨"Russia total losses", "<p>Russia total losses</p>"⟩,
       ⟨"Tanks (10", "<p>Tanks (10</p>"⟩,
       ⟨"5 T-62:", "<li>5 T-62:</li>"⟩] =
    List.replicate 5
      { country := "russia", equipment_type := "T-62", status := "destroyed",
        url := none, date_recorded := some "D" } := by decide

example :
    scrape_equipment_entries "D" "russia"
      [⟨"Russia total losses", ""⟩,
       ⟨"Tanks (10", ""⟩,
       ⟨"Ukraine section", ""⟩,
       ⟨"5 T-62:", ""⟩] = [] := by decide

example :
    generate_daily_count_csv "D"
      [⟨"russia", "T-62", "destroyed", none, some "D"⟩,
       ⟨"russia", "T-62", "captured", none, some "D"⟩,
       ⟨"russia", "T-62", "destroyed", none, some "E"⟩] =
    some [{ country := "russia", equipment_type := "T-62", destroyed := 1,
            abandoned := 0, captured := 1, damaged := 0, type_total := 2,
            date_recorded := "D" },
          { country := "russia", equipment_type := "T-62", destroyed := 1,
            abandoned := 0, captured := 0, damaged := 0, type_total := 1,
            date_recorded := "E" }] := by decide

example :
    generate_totals_by_type_csv
      [⟨"russia", "T-62", "destroyed", none, some "D"⟩,
       ⟨"russia", "T-62", "captured", none, some "D"⟩,
       ⟨"russia", "T-62", "destroyed", none, some "E"⟩] =
    some [{ country := "russia", type := "T-62", destroyed := 2,
            abandoned := 0, captured := 1, damaged := 0, total := 3 }] := by decide

example :
    generate_daily_count_csv "D" [⟨"russia", "T-62", "weird", none, none⟩] =
      none := by decide

theorem unitsLoop_ge : ∀ fuel k cs, k ≤ (unitsLoop fuel k cs).1 := by
  intro fuel
  induction fuel with
  | zero => intro k cs; simp [unitsLoop]
  | succ n ih =>
    intro k cs
    unfold unitsLoop
    split
    · split
      · split
        · exact le_trans (Nat.le_succ k) (ih _ _)
        · simp
      · simp
    · simp

theorem statusTail_fst {k : Nat} {cs : List Char} {k' raw rem}
    (h : statusTail k cs = some (k', raw, rem)) : k' = k := by
  unfold statusTail at h
  repeat' split at h
  all_goals cases h
  rfl

theorem statusAttempt_fst_pos {cs : List Char} {k raw rem}
    (h : statusAttempt cs = some (k, raw, rem)) : 0 < k := by
  unfold statusAttempt at h
  split at h
  · rename_i d ds
    split at h
    · split at h
      rename_i k₂ cs₂ hu
      have h1 := statusTail_fst h
      have h2 := unitsLoop_ge ((d :: ds).dropWhile pyDigit).length 1
        ((d :: ds).dropWhile pyDigit)
      rw [hu] at h2
      simp only at h2
      omega
    · cases h
  · cases h

theorem scanGroupsF_fst_pos :
    ∀ fuel cs, ∀ p ∈ scanGroupsF fuel cs, 0 < p.1 := by
  intro fuel
  induction fuel with
  | zero => intro cs p hp; cases hp
  | succ n ih =>
    intro cs p hp
    unfold scanGroupsF at hp
    split at hp
    · cases hp
    · split at hp
      · split at hp
        · rename_i k raw rem ha
          rw [List.mem_cons] at hp
          rcases hp with hp | hp
          · subst hp
            exact statusAttempt_fst_pos ha
          · exact ih _ _ hp
        · exact ih _ _ hp
      · exact ih _ _ hp

/-- `parse_equipment_line` as the first-match-wins chaining of the three
tiers (shared supporting lemma). -/
theorem parse_tiers_eq (current_date line country category : String)
    (html_line : Option String) (total_count : Nat) (g₂ : List Char)
    (h : itemMatch (stripChars line.data) = some (total_count, g₂)) :
    parse_equipment_line current_date line country category html_line =
      if markupTier current_date country ⟨stripChars g₂⟩ html_line = [] then
        (if textTier current_date country ⟨stripChars g₂⟩ line = [] then
          (if 0 < total_count then
            List.replicate total_count
              { country := lowerStr country, equipment_type := ⟨stripChars g₂⟩,
                status := "destroyed", url := none, date_recorded := some current_date }
          else [])
        else textTier current_date country ⟨stripChars g₂⟩ line)
      else markupTier current_date country ⟨stripChars g₂⟩ html_line := by
  unfold parse_equipment_line
  rw [h]
  by_cases hm : markupTier current_date country ⟨stripChars g₂⟩ html_line = [] <;>
    by_cases ht : textTier current_date country ⟨stripChars g₂⟩ line = [] <;>
      by_cases htc : 0 < total_count <;>
        simp [hm, ht, htc, List.isEmpty_iff]

/-- The four possible lower-cased status texts. -/
def isStatusWord (raw : List Char) : Prop :=
  lowerChars raw = "destroyed".data ∨ lowerChars raw = "captured".data ∨
  lowerChars raw = "abandoned".data ∨ lowerChars raw = "damaged".data

theorem tryStatus_word {cs m rest} (h : tryStatus cs = some (m, rest)) :
    isStatusWord m := by
  simpa [isStatusWord, lowerChars] using tryStatus_lower h

theorem statusTail_word {k : Nat} {cs : List Char} {k' raw rem}
    (h : statusTail k cs = some (k', raw, rem)) : isStatusWord raw := by
  unfold statusTail at h
  split at h
  · split at h
    · rename_i raw' cs₆ hts
      split at h
      · split at h
        · cases h
          exact tryStatus_word hts
        · cases h
      · cases h
    · cases h
  · cases h

theorem statusAttempt_word {cs : List Char} {k raw rem}
    (h : statusAttempt cs = some (k, raw, rem)) : isStatusWord raw := by
  unfold statusAttempt at h
  split at h
  · split at h
    · split at h
      exact statusTail_word h
    · cases h
  · cases h

theorem scanGroupsF_word :
    ∀ fuel cs, ∀ p ∈ scanGroupsF fuel cs, isStatusWord p.2 := by
  intro fuel
  induction fuel with
  | zero => intro cs p hp; cases hp
  | succ n ih =>
    intro cs p hp
    unfold scanGroupsF at hp
    split at hp
    · cases hp
    · split at hp
      · split at hp
        · rename_i k raw rem ha
          rw [List.mem_cons] at hp
          rcases hp with hp | hp
          · subst hp
            exact statusAttempt_word ha
          · exact ih _ _ hp
        · exact ih _ _ hp
      · exact ih _ _ hp

theorem afterHref_word {cs : List Char} {url raw rem}
    (h : afterHref cs = some (url, raw, rem)) : isStatusWord raw := by
  unfold afterHref at h
  split at h
  · rename_i r₂ h₂
    split at h
    · rename_i r₄ h₄
      split at h
      · rename_i r₅
        split at h
        · rename_i d ds
          split at h
          · split at h
            · rename_i r₇ h₇
              split at h
              · rename_i raw' r₉ h₉
                split at h
                · rename_i r₁₀
                  split at h
                  · rename_i pr r₁₁ hw
                    cases h
                    exact tryStatus_word h₉
                  · cases h
                · cases h
              · cases h
            · cases h
          · cases h
        · cases h
      · cases h
    · cases h
  · cases h

theorem linkAttempt_word {cs : List Char} {url raw rem}
    (h : linkAttempt cs = some (url, raw, rem)) : isStatusWord raw := by
  obtain ⟨t, ht, hf⟩ := firstSome_mem afterHref _ _ h
  exact afterHref_word hf

theorem scanLinksF_word :
    ∀ fuel cs, ∀ p ∈ scanLinksF fuel cs, isStatusWord p.2 := by
  intro fuel
  induction fuel with
  | zero => intro cs p hp; cases hp
  | succ n ih =>
    intro cs p hp
    unfold scanLinksF at hp
    split at hp
    · cases hp
    · split at hp
      · split at hp
        · split at hp
          · split at hp
            · rename_i url raw rem ha
              rw [List.mem_cons] at hp
              rcases hp with hp | hp
              · subst hp
                exact linkAttempt_word ha
              · exact ih _ _ hp
            · exact ih _ _ hp
          · exact ih _ _ hp
        · cases hp
      · exact ih _ _ hp

theorem isStatusWord_statusOk {raw : List Char} (h : isStatusWord raw) :
    statusOk ⟨lowerChars raw⟩ = true := by
  rcases h with h | h | h | h <;> rw [show (⟨lowerChars raw⟩ : String) = _ from congrArg String.mk h] <;> decide

theorem lowerStr_ne_empty {s : String} (h : ¬ s = "") : ¬ lowerStr s = "" := by
  intro he
  apply h
  have hd : (lowerStr s).data = ("" : String).data := by rw [he]
  simp only [lowerStr, lowerChars] at hd
  cases s with
  | mk d =>
    cases d with
    | nil => rfl
    | cons c cs => simp at hd

theorem lookupPair_fst {κ : Type} [DecidableEq κ] :
    ∀ (m : List (κ × Counts)) (k : κ) (p : κ × Counts),
      lookupPair m k = some p → p.1 = k := by
  intro m
  induction m with
  | nil => intro k p h; cases h
  | cons q rest ih =>
    intro k p h
    obtain ⟨k', c⟩ := q
    unfold lookupPair at h
    split at h
    · cases h; assumption
    · exact ih k p h

theorem updA_lookup {κ : Type} [DecidableEq κ] (k₁ : κ) (s : String) :
    ∀ (acc : List (κ × Counts)) (k : κ),
      lookupPair (updA acc k₁ s) k =
        if k₁ = k then
          some (k, incC ((lookupPair acc k).elim counts0 Prod.snd) s)
        else lookupPair acc k := by
  intro acc
  induction acc with
  | nil =>
    intro k
    by_cases h : k₁ = k <;> simp [updA, lookupPair, h]
  | cons q rest ih =>
    intro k
    obtain ⟨k', c⟩ := q
    by_cases h1 : k' = k₁
    · subst h1
      by_cases h2 : k' = k
      · subst h2
        simp [updA, lookupPair]
      · simp [updA, lookupPair, h2]
    · by_cases h2 : k' = k
      · subst h2
        have h3 : ¬ k₁ = k' := fun hh => h1 hh.symm
        simp [updA, lookupPair, h1, h3]
      · simp [updA, lookupPair, h1, h2, ih k]

theorem cntOfF_nil {κ : Type} [DecidableEq κ] (keyF : EquipmentEntry → κ) (k : κ) :
    cntOfF keyF [] k = counts0 := by
  simp [cntOfF, counts0]

theorem addC_counts0 (c : Counts) : addC c counts0 = c := by
  cases c; simp [addC, counts0]

theorem counts0_addC (c : Counts) : addC counts0 c = c := by
  cases c; simp [addC, counts0]

theorem statusOk_cases {s : String} (h : statusOk s = true) :
    s = "destroyed" ∨ s = "abandoned" ∨ s = "captured" ∨ s = "damaged" := by
  unfold statusOk at h
  simp only [Bool.or_eq_true, decide_eq_true_eq] at h
  tauto

theorem cntOfF_cons_eq {κ : Type} [DecidableEq κ] (keyF : EquipmentEntry → κ)
    (e : EquipmentEntry) (rest : List EquipmentEntry) (k : κ)
    (hk : keyF e = k) (hs : statusOk e.status = true) (c : Counts) :
    addC (incC c e.status) (cntOfF keyF rest k) =
      addC c (cntOfF keyF (e :: rest) k) := by
  rcases statusOk_cases hs with h | h | h | h <;>
    cases c <;>
      simp [cntOfF, incC, addC, List.countP_cons, hk, h] <;> omega

theorem cntOfF_cons_ne {κ : Type} [DecidableEq κ] (keyF : EquipmentEntry → κ)
    (e : EquipmentEntry) (rest : List EquipmentEntry) (k : κ)
    (hk : ¬ keyF e = k) :
    cntOfF keyF (e :: rest) k = cntOfF keyF rest k := by
  simp [cntOfF, List.countP_cons, hk]

theorem aggGo_lookup {κ : Type} [DecidableEq κ] (keyF : EquipmentEntry → κ) :
    ∀ (es : List EquipmentEntry) (acc m : List (κ × Counts)),
      aggGo keyF acc es = some m → ∀ k,
      lookupPair m k =
        match lookupPair acc k with
        | some p => some (p.1, addC p.2 (cntOfF keyF es k))
        | none =>
          if es.any (fun e => decide (keyF e = k)) then
            some (k, cntOfF keyF es k)
          else none := by
  intro es
  induction es with
  | nil =>
    intro acc m h k
    unfold aggGo at h
    injection h with h
    subst h
    cases hl : lookupPair acc k with
    | none => simp
    | some p => simp [cntOfF_nil, addC_counts0]
  | cons e rest ih =>
    intro acc m h k
    unfold aggGo at h
    split at h
    · rename_i hs
      have ih2 := ih (updA acc (keyF e) e.status) m h k
      rw [updA_lookup (keyF e) e.status acc k] at ih2
      by_cases hk : keyF e = k
      · rw [if_pos hk] at ih2
        cases hl : lookupPair acc k with
        | some p =>
          rw [hl] at ih2
          simp only [Option.elim] at ih2
          rw [ih2]
          simp only [hl]
          have hfst := lookupPair_fst acc k p hl
          rw [← cntOfF_cons_eq keyF e rest k hk hs p.2, hfst]
        | none =>
          rw [hl] at ih2
          simp only [Option.elim] at ih2
          rw [ih2]
          simp only [hl]
          have hany : (e :: rest).any (fun e => decide (keyF e = k)) = true := by
            simp [List.any_cons, hk]
          rw [hany]
          have hc := cntOfF_cons_eq keyF e rest k hk hs counts0
          rw [counts0_addC] at hc
          rw [← hc]
          simp
      · rw [if_neg hk] at ih2
        rw [ih2, cntOfF_cons_ne keyF e rest k hk]
        have hany : (e :: rest).any (fun e => decide (keyF e = k)) =
            rest.any (fun e => decide (keyF e = k)) := by
          simp [List.any_cons, hk]
        simp only [hany]
    · cases h

theorem aggGo_some_statusOk {κ : Type} [DecidableEq κ] (keyF : EquipmentEntry → κ) :
    ∀ (es : List EquipmentEntry) (acc m : List (κ × Counts)),
      aggGo keyF acc es = some m → ∀ e ∈ es, statusOk e.status = true := by
  intro es
  induction es with
  | nil => intro acc m h e he; cases he
  | cons e₀ rest ih =>
    intro acc m h e he
    unfold aggGo at h
    split at h
    · rename_i hs
      rw [List.mem_cons] at he
      rcases he with he | he
      · subst he; exact hs
      · exact ih _ m h e he
    · cases h

theorem aggGo_isSome {κ : Type} [DecidableEq κ] (keyF : EquipmentEntry → κ) :
    ∀ (es : List EquipmentEntry) (acc : List (κ × Counts)),
      (∀ e ∈ es, statusOk e.status = true) → (aggGo keyF acc es).isSome = true := by
  intro es
  induction es with
  | nil => intro acc h; simp [aggGo]
  | cons e rest ih =>
    intro acc h
    unfold aggGo
    rw [if_pos (h e (List.mem_cons_self e rest))]
    exact ih _ (fun x hx => h x (List.mem_cons_of_mem e hx))

theorem updA_keys_mem {κ : Type} [DecidableEq κ] (k₁ : κ) (s : String) :
    ∀ (acc : List (κ × Counts)) (x : κ),
      x ∈ (updA acc k₁ s).map Prod.fst → x ∈ acc.map Prod.fst ∨ x = k₁ := by
  intro acc
  induction acc with
  | nil => intro x hx; simp [updA] at hx; exact Or.inr hx
  | cons q rest ih =>
    intro x hx
    obtain ⟨k', c⟩ := q
    unfold updA at hx
    split at hx
    · simp only [List.map_cons, List.mem_cons] at hx ⊢
      tauto
    · simp only [List.map_cons, List.mem_cons] at hx ⊢
      rcases hx with hx | hx
      · tauto
      · rcases ih x hx with h | h <;> tauto

theorem updA_keys_nodup {κ : Type} [DecidableEq κ] (k₁ : κ) (s : String) :
    ∀ (acc : List (κ × Counts)),
      (acc.map Prod.fst).Nodup → ((updA acc k₁ s).map Prod.fst).Nodup := by
  intro acc
  induction acc with
  | nil => intro h; simp [updA]
  | cons q rest ih =>
    intro h
    obtain ⟨k', c⟩ := q
    simp only [List.map_cons, List.nodup_cons] at h
    unfold updA
    split
    · simp only [List.map_cons, List.nodup_cons]
      exact h
    · rename_i hne
      simp only [List.map_cons, List.nodup_cons]
      refine ⟨fun hmem => ?_, ih h.2⟩
      rcases updA_keys_mem k₁ s rest k' hmem with hh | hh
      · exact h.1 hh
      · exact hne hh

theorem aggGo_keys_nodup {κ : Type} [DecidableEq κ] (keyF : EquipmentEntry → κ) :
    ∀ (es : List EquipmentEntry) (acc m : List (κ × Counts)),
      (acc.map Prod.fst).Nodup → aggGo keyF acc es = some m →
      (m.map Prod.fst).Nodup := by
  intro es
  induction es with
  | nil =>
    intro acc m hn h
    unfold aggGo at h
    injection h with h
    subst h
    exact hn
  | cons e rest ih =>
    intro acc m hn h
    unfold aggGo at h
    split at h
    · exact ih _ m (updA_keys_nodup (keyF e) e.status acc hn) h
    · cases h

theorem lookupPair_of_mem {κ : Type} [DecidableEq κ] :
    ∀ (m : List (κ × Counts)) (k : κ) (c : Counts),
      (m.map Prod.fst).Nodup → (k, c) ∈ m → lookupPair m k = some (k, c) := by
  intro m
  induction m with
  | nil => intro k c _ hmem; cases hmem
  | cons q rest ih =>
    intro k c hn hmem
    obtain ⟨k', c'⟩ := q
    simp only [List.map_cons, List.nodup_cons] at hn
    rw [List.mem_cons] at hmem
    rcases hmem with hm | hm
    · cases hm
      unfold lookupPair
      simp
    · have hk : ¬ k' = k := by
        intro hh
        subst hh
        exact hn.1 (List.mem_map_of_mem Prod.fst hm)
      unfold lookupPair
      rw [if_neg hk]
      exact ih k c hn.2 hm

theorem cntOfF_sum {κ : Type} [DecidableEq κ] (keyF : EquipmentEntry → κ) (k : κ) :
    ∀ (es : List EquipmentEntry), (∀ e ∈ es, statusOk e.status = true) →
      (cntOfF keyF es k).destroyed + (cntOfF keyF es k).abandoned +
        (cntOfF keyF es k).captured + (cntOfF keyF es k).damaged =
        es.countP (fun e => decide (keyF e = k)) := by
  intro es
  induction es with
  | nil => intro h; simp [cntOfF]
  | cons e rest ih =>
    intro h
    have hrest := ih (fun x hx => h x (List.mem_cons_of_mem e hx))
    have hs := h e (List.mem_cons_self e rest)
    by_cases hk : keyF e = k
    · rcases statusOk_cases hs with h4 | h4 | h4 | h4 <;>
        simp [cntOfF, List.countP_cons, hk, h4] at hrest ⊢ <;> omega
    · simp [cntOfF, List.countP_cons, hk] at hrest ⊢ <;> omega

theorem findDailyRow_map :
    ∀ (m : List ((String × String × String) × Counts)) (k : String × String × String),
      findDailyRow (m.map dailyRowOf) k = (lookupPair m k).map dailyRowOf := by
  intro m
  induction m with
  | nil => intro k; simp [findDailyRow, lookupPair]
  | cons p rest ih =>
    intro k
    obtain ⟨⟨k1, k2, k3⟩, c⟩ := p
    by_cases hk : (k1, k2, k3) = k
    · subst hk
      simp [findDailyRow, lookupPair, dailyRowOf]
    · simp only [List.map_cons]
      unfold findDailyRow lookupPair
      rw [if_neg (by simpa [dailyRowOf] using hk), if_neg hk]
      exact ih k

theorem findTypeRow_map :
    ∀ (m : List ((String × String) × Counts)) (k : String × String),
      findTypeRow (m.map typeRowOf) k = (lookupPair m k).map typeRowOf := by
  intro m
  induction m with
  | nil => intro k; simp [findTypeRow, lookupPair]
  | cons p rest ih =>
    intro k
    obtain ⟨⟨k1, k2⟩, c⟩ := p
    by_cases hk : (k1, k2) = k
    · subst hk
      simp [findTypeRow, lookupPair, typeRowOf]
    · simp only [List.map_cons]
      unfold findTypeRow lookupPair
      rw [if_neg (by simpa [typeRowOf] using hk), if_neg hk]
      exact ih k

theorem aggGo_find {κ : Type} [DecidableEq κ] (keyF : EquipmentEntry → κ)
    (es : List EquipmentEntry) (m : List (κ × Counts))
    (h : aggGo keyF [] es = some m) (k : κ) :
    lookupPair m k =
      if es.any (fun e => decide (keyF e = k)) then
        some (k, cntOfF keyF es k)
      else none := by
  have h2 := aggGo_lookup keyF es [] m h k
  simpa [lookupPair] using h2

theorem isSome_map {α β : Type} (f : α → β) (o : Option α) :
    (o.map f).isSome = o.isSome := by cases o <;> rfl

theorem perm_any {α : Type} {es es' : List α} (h : es.Perm es') (p : α → Bool) :
    es.any p = es'.any p := by
  have hiff : es.any p = true ↔ es'.any p = true := by
    simp only [List.any_eq_true]
    constructor
    · rintro ⟨x, hx, hp⟩; exact ⟨x, h.mem_iff.mp hx, hp⟩
    · rintro ⟨x, hx, hp⟩; exact ⟨x, h.mem_iff.mpr hx, hp⟩
  cases hb : es.any p <;> cases hb' : es'.any p <;> simp_all

theorem perm_cntOfF {κ : Type} [DecidableEq κ] (keyF : EquipmentEntry → κ)
    {es es' : List EquipmentEntry} (h : es.Perm es') (k : κ) :
    cntOfF keyF es k = cntOfF keyF es' k := by
  simp [cntOfF, h.countP_eq]

theorem aggGo_isSome_iff {κ : Type} [DecidableEq κ] (keyF : EquipmentEntry → κ)
    (es : List EquipmentEntry) :
    (aggGo keyF [] es).isSome = true ↔ ∀ e ∈ es, statusOk e.status = true := by
  constructor
  · intro h
    rw [Option.isSome_iff_exists] at h
    obtain ⟨m, hm⟩ := h
    exact aggGo_some_statusOk keyF es [] m hm
  · exact aggGo_isSome keyF es []


/-! ## Claim theorems -/

/-- **C1.** For every call to `parse_equipment_line` on a line matching the
item shape, the fallback tier fires exactly when the markup tier and the
plain-text tier both yield zero entries and the declared total count is
`> 0`, in which case the result is exactly `total_count` entries all with
status `destroyed`; whenever any marker tier yields at least one entry the
declared total is never used (the result is that tier's entries,
independently of `total_count`). -/
theorem parse_fallback_tier_spec (current_date line country category : String)
    (html_line : Option String) (total_count : Nat) (g₂ : List Char)
    (h : itemMatch (stripChars line.data) = some (total_count, g₂)) :
    parse_equipment_line current_date line country category html_line =
      if markupTier current_date country ⟨stripChars g₂⟩ html_line = [] then
        (if textTier current_date country ⟨stripChars g₂⟩ line = [] then
          (if 0 < total_count then
            List.replicate total_count
              { country := lowerStr country, equipment_type := ⟨stripChars g₂⟩,
                status := "destroyed", url := none, date_recorded := some current_date }
          else [])
        else textTier current_date country ⟨stripChars g₂⟩ line)
      else markupTier current_date country ⟨stripChars g₂⟩ html_line :=
  parse_tiers_eq current_date line country category html_line total_count g₂ h

/-- Witness for `parse_fallback_tier_spec`: the two examples from the
claim.  `"2 BMP-1: (1, captured)"` has a non-empty plain-text tier, so the
declared total `2` is ignored and exactly one `captured` entry results;
`"5 Tanks:"` has no markers, so the fallback produces 5 `destroyed`
entries. -/
theorem parse_fallback_tier_spec_inst :
    itemMatch (stripChars "2 BMP-1: (1, captured)".data) = some (2, "BMP-1".data) ∧
    parse_equipment_line "2024-01-01" "2 BMP-1: (1, captured)" "russia" "IFV" none =
      [{ country := "russia", equipment_type := "BMP-1", status := "captured",
         url := none, date_recorded := some "2024-01-01" }] ∧
    itemMatch (stripChars "5 Tanks:".data) = some (5, "Tanks".data) ∧
    parse_equipment_line "2024-01-01" "5 Tanks:" "russia" "Tanks" none =
      List.replicate 5
        { country := "russia", equipment_type := "Tanks", status := "destroyed",
          url := none, date_recorded := some "2024-01-01" } := by
  refine ⟨by decide, ?_, by decide, ?_⟩
  · rw [parse_fallback_tier_spec "2024-01-01" "2 BMP-1: (1, captured)" "russia" "IFV"
      none 2 "BMP-1".data (by decide)]
    decide
  · rw [parse_fallback_tier_spec "2024-01-01" "5 Tanks:" "russia" "Tanks"
      none 5 "Tanks".data (by decide)]
    decide

/-- **C4.** A line failing the item-declaration shape check yields the
empty list (and, the embedding being total, no error); a matching line
whose marker scan yields nothing and whose declared total is not `> 0`
likewise contributes zero entries. -/
theorem unrecognized_line_skipped (current_date line country category : String)
    (html_line : Option String) :
    (itemMatch (stripChars line.data) = none →
      parse_equipment_line current_date line country category html_line = []) ∧
    (∀ total_count g₂, itemMatch (stripChars line.data) = some (total_count, g₂) →
      markupTier current_date country ⟨stripChars g₂⟩ html_line = [] →
      textTier current_date country ⟨stripChars g₂⟩ line = [] →
      total_count = 0 →
      parse_equipment_line current_date line country category html_line = []) := by
  constructor
  · intro h
    unfold parse_equipment_line
    rw [h]
  · intro total_count g₂ h hm ht htc
    rw [parse_tiers_eq current_date line country category html_line
      total_count g₂ h, if_pos hm, if_pos ht, htc]
    simp

/-- Witness for `unrecognized_line_skipped`: the non-item line `"hello"`
and the marker-free zero-total line `"0 Tank:"`. -/
theorem unrecognized_line_skipped_inst :
    parse_equipment_line "2024-01-01" "hello" "russia" "Tanks" none = [] ∧
    parse_equipment_line "2024-01-01" "0 Tank:" "russia" "Tanks" none = [] := by
  constructor
  · exact (unrecognized_line_skipped "2024-01-01" "hello" "russia" "Tanks" none).1
      (by decide)
  · exact (unrecognized_line_skipped "2024-01-01" "0 Tank:" "russia" "Tanks" none).2
      0 "Tank".data (by decide) (by decide) (by decide) rfl

/-- **C2, counterexample.** The claim's example is false on the code: the
line `"3 T-64: (1, destroyed) (2, destroyed)"` with no markup yields
exactly 2 entries (each parenthesized group holds one number, and the
numbers' values are discarded), not 3. -/
theorem text_tier_example_counter :
    (parse_equipment_line "2024-01-01" "3 T-64: (1, destroyed) (2, destroyed)"
      "russia" "Tanks" none).length = 2 ∧
    ¬ (parse_equipment_line "2024-01-01" "3 T-64: (1, destroyed) (2, destroyed)"
      "russia" "Tanks" none).length = 3 := by
  constructor <;> decide

/-- **C2, amended.** In the plain-text tier (markup tier empty), every
parenthesized group of `k` comma-separated numbers followed by one status
word expands into exactly `k` entries carrying that status (lower-cased)
and no source reference — the numbers' values are discarded, only their
count matters.  In particular the example line yields exactly **2**
entries, all `destroyed` (see the witness). -/
theorem text_tier_group_expansion (current_date line country category : String)
    (html_line : Option String) (total_count : Nat) (g₂ : List Char)
    (h : itemMatch (stripChars line.data) = some (total_count, g₂))
    (hm : markupTier current_date country ⟨stripChars g₂⟩ html_line = [])
    (ht : ¬ scanGroups line.data = []) :
    parse_equipment_line current_date line country category html_line =
      (scanGroups line.data).flatMap (fun m =>
        List.replicate m.1
          { country := lowerStr country, equipment_type := ⟨stripChars g₂⟩,
            status := ⟨lowerChars m.2⟩, url := none,
            date_recorded := some current_date }) := by
  have hne : ¬ textTier current_date country ⟨stripChars g₂⟩ line = [] := by
    unfold textTier
    intro hempty
    apply ht
    cases hg : scanGroups line.data with
    | nil => rfl
    | cons p ps =>
      rw [hg] at hempty
      simp only [List.flatMap_cons, List.append_eq_nil] at hempty
      have h1 := hempty.1
      have h2 : 0 < p.1 := scanGroupsF_fst_pos _ _ p (hg ▸ List.mem_cons_self p ps)
      rw [List.replicate_eq_nil_iff] at h1
      omega
  rw [parse_tiers_eq current_date line country category html_line total_count g₂ h,
    if_pos hm, if_neg hne]
  rfl

/-- Witness for `text_tier_group_expansion`: the (corrected) example — the
line `"3 T-64: (1, destroyed) (2, destroyed)"` with no markup yields
exactly 2 entries, all `destroyed`, for the active country and category. -/
theorem text_tier_group_expansion_inst :
    parse_equipment_line "2024-01-01" "3 T-64: (1, destroyed) (2, destroyed)"
      "russia" "Tanks" none =
      [{ country := "russia", equipment_type := "T-64", status := "destroyed",
         url := none, date_recorded := some "2024-01-01" },
       { country := "russia", equipment_type := "T-64", status := "destroyed",
         url := none, date_recorded := some "2024-01-01" }] := by
  rw [text_tier_group_expansion "2024-01-01" "3 T-64: (1, destroyed) (2, destroyed)"
    "russia" "Tanks" none 3 "T-64".data (by decide) (by decide) (by decide)]
  decide

/-- **C3.** In the markup tier, every anchor whose visible text matches
`(<integer>, <status-word>)` (one of the four status words,
case-insensitively) yields exactly one entry; anchors are processed in
document order with entries appended in that order; the anchor's link
target is kept as `source_reference` (`url`) only when it is an absolute
reference (`startswith("http")`), and is otherwise dropped while the
status entry is still produced. -/
theorem markup_tier_anchor_entries (current_date line country category html : String)
    (total_count : Nat) (g₂ : List Char)
    (h : itemMatch (stripChars line.data) = some (total_count, g₂))
    (hh : ¬ html = "")
    (hl : ¬ scanLinks html.data = []) :
    parse_equipment_line current_date line country category (some html) =
      (scanLinks html.data).map (fun m =>
        { country := lowerStr country, equipment_type := ⟨stripChars g₂⟩,
          status := ⟨lowerChars m.2⟩,
          url := if listPre "http".data m.1 then some ⟨m.1⟩ else none,
          date_recorded := some current_date }) := by
  have hm : ¬ markupTier current_date country ⟨stripChars g₂⟩ (some html) = [] := by
    simp only [markupTier, if_neg hh, List.map_eq_nil_iff]
    exact hl
  rw [parse_tiers_eq current_date line country category (some html) total_count g₂ h,
    if_neg hm]
  simp only [markupTier, if_neg hh]

/-- Witness for `markup_tier_anchor_entries`: the claim's example — an
absolute-reference anchor keeps its target, a relative one drops it while
still producing the `damaged` entry. -/
theorem markup_tier_anchor_entries_inst :
    parse_equipment_line "2024-01-01" "1 T-90: x" "russia" "Tanks"
        (some "<a href=\"http://x/1\">(1, damaged)</a>") =
      [{ country := "russia", equipment_type := "T-90", status := "damaged",
         url := some "http://x/1", date_recorded := some "2024-01-01" }] ∧
    parse_equipment_line "2024-01-01" "1 T-90: x" "russia" "Tanks"
        (some "<a href=\"x/1\">(1, damaged)</a>") =
      [{ country := "russia", equipment_type := "T-90", status := "damaged",
         url := none, date_recorded := some "2024-01-01" }] := by
  constructor
  · rw [markup_tier_anchor_entries "2024-01-01" "1 T-90: x" "russia" "Tanks"
      "<a href=\"http://x/1\">(1, damaged)</a>" 1 "T-90".data
      (by decide) (by decide) (by decide)]
    decide
  · rw [markup_tier_anchor_entries "2024-01-01" "1 T-90: x" "russia" "Tanks"
      "<a href=\"x/1\">(1, damaged)</a>" 1 "T-90".data
      (by decide) (by decide) (by decide)]
    decide

/-- **C5, counterexample.** The line `"12  :"` (two spaces before the
colon) passes the item-shape check with declared name `" "` which strips
to the empty string, so the fallback produces 12 entries whose
`equipment_type` is empty — refuting the claimed invariant that
`equipment_type` is never empty. -/
theorem entry_invariant_counter :
    (parse_equipment_line "2024-01-01" "12  :" "russia" "Tanks" none).map
      (fun e => e.equipment_type) = List.replicate 12 "" ∧
    ¬ parse_equipment_line "2024-01-01" "12  :" "russia" "Tanks" none = [] := by
  constructor <;> decide

/-- **C5, amended.** Every entry produced by `parse_equipment_line`
satisfies: `status` is one of the four closed values, `country` is the
lower-cased input country (hence non-empty whenever the input country is
non-empty), `date_recorded` is the run's date, and `equipment_type` is the
stripped declared name — which *can* be empty (line `"12  :"`); the entry
carries no count field (the `EquipmentEntry` structure has none — counts
are expressed solely by entry multiplicity). -/
theorem entry_invariant_amended (current_date line country category : String)
    (html_line : Option String) :
    ∀ e ∈ parse_equipment_line current_date line country category html_line,
      statusOk e.status = true ∧
      e.country = lowerStr country ∧
      (¬ country = "" → ¬ e.country = "") ∧
      e.date_recorded = some current_date ∧
      ∃ total_count g₂, itemMatch (stripChars line.data) = some (total_count, g₂) ∧
        e.equipment_type = ⟨stripChars g₂⟩ := by
  intro e he
  cases hit : itemMatch (stripChars line.data) with
  | none =>
    unfold parse_equipment_line at he
    rw [hit] at he
    cases he
  | some p =>
    obtain ⟨tc, g₂⟩ := p
    rw [parse_tiers_eq current_date line country category html_line tc g₂ hit] at he
    by_cases hm : markupTier current_date country ⟨stripChars g₂⟩ html_line = []
    · rw [if_pos hm] at he
      by_cases ht : textTier current_date country ⟨stripChars g₂⟩ line = []
      · rw [if_pos ht] at he
        by_cases htc : 0 < tc
        · rw [if_pos htc] at he
          have he2 := List.eq_of_mem_replicate he
          subst he2
          refine ⟨?_, rfl, fun hc => lowerStr_ne_empty hc, rfl, tc, g₂, rfl, rfl⟩
          show statusOk "destroyed" = true
          decide
        · rw [if_neg htc] at he
          cases he
      · rw [if_neg ht] at he
        unfold textTier at he
        rw [List.mem_flatMap] at he
        obtain ⟨m, hmem, hrep⟩ := he
        have he2 := List.eq_of_mem_replicate hrep
        subst he2
        exact ⟨isStatusWord_statusOk (scanGroupsF_word _ _ m hmem), rfl,
          fun hc => lowerStr_ne_empty hc, rfl, tc, g₂, rfl, rfl⟩
    · rw [if_neg hm] at he
      cases html_line with
      | none => exact absurd rfl hm
      | some hstr =>
        by_cases hh : hstr = ""
        · exact absurd (by simp [markupTier, hh]) hm
        · simp only [markupTier, if_neg hh] at he
          rw [List.mem_map] at he
          obtain ⟨m, hmem, he2⟩ := he
          subst he2
          exact ⟨isStatusWord_statusOk (scanLinksF_word _ _ m hmem), rfl,
            fun hc => lowerStr_ne_empty hc, rfl, tc, g₂, rfl, rfl⟩

/-- Witness for `entry_invariant_amended`: instantiated at the single
entry produced from `"2 BMP-1: (1, captured)"`. -/
theorem entry_invariant_amended_inst :
    statusOk (EquipmentEntry.mk "russia" "BMP-1" "captured" none
        (some "2024-01-01")).status = true ∧
    (EquipmentEntry.mk "russia" "BMP-1" "captured" none
        (some "2024-01-01")).country = lowerStr "russia" ∧
    (¬ "russia" = "" →
      ¬ (EquipmentEntry.mk "russia" "BMP-1" "captured" none
          (some "2024-01-01")).country = "") ∧
    (EquipmentEntry.mk "russia" "BMP-1" "captured" none
        (some "2024-01-01")).date_recorded = some "2024-01-01" ∧
    ∃ total_count g₂,
      itemMatch (stripChars "2 BMP-1: (1, captured)".data) = some (total_count, g₂) ∧
      (EquipmentEntry.mk "russia" "BMP-1" "captured" none
          (some "2024-01-01")).equipment_type = ⟨stripChars g₂⟩ :=
  entry_invariant_amended "2024-01-01" "2 BMP-1: (1, captured)" "russia" "IFV" none
    (EquipmentEntry.mk "russia" "BMP-1" "captured" none (some "2024-01-01")) (by decide)

/-- **C9.** Per-block processing order: (a) section-entry heuristic,
(b) section-exit heuristic, (c) category-header heuristic, (d) item-line
parsing (only with both flags set); a block is classified as at most one
of these.  In particular a block whose text matches the category pattern
`^<label>\s*\((<integer>` — given that the earlier checks (a) and (b) do
not fire — sets `current_category` to the stripped label, produces no
entries, and cannot simultaneously be parsed as an item line (the
conclusion is independent of whether the item pattern also matches, as it
does for e.g. `"154 T-62M: (1, destroyed)"`). -/
theorem block_priority_category (current_date country country_lower : String)
    (inSec : Bool) (cat : Option String) (b : Block) (rest : List Block) (g : List Char)
    (hne : ¬ b.text = "")
    (hentry : (isSubstr country_lower.data (lowerChars b.text.data) &&
      (isSubstr "total".data (lowerChars b.text.data) ||
       isSubstr "losses".data (lowerChars b.text.data))) = false)
    (hexit : (inSec &&
      ((isSubstr "ukraine".data (lowerChars b.text.data) && country_lower = "russia") ||
       (isSubstr "russia".data (lowerChars b.text.data) && country_lower = "ukraine"))) = false)
    (hcat : catMatch b.text.data = some g) :
    scanGo current_date country country_lower inSec cat (b :: rest) =
      scanGo current_date country country_lower inSec (some ⟨stripChars g⟩) rest := by
  simp only [scanGo]
  rw [if_neg hne]
  rw [if_neg (by rw [hentry]; exact Bool.false_ne_true)]
  rw [if_neg (by rw [hexit]; exact Bool.false_ne_true)]
  rw [hcat]

/-- Witness for `block_priority_category`: the block
`"154 T-62M: (1, destroyed)"` matches both the category pattern and the
item pattern; it is classified as a category header (label
`"154 T-62M:"`), yielding no entries. -/
theorem block_priority_category_inst :
    scanGo "2024-01-01" "russia" "russia" true (some "Tanks")
      [⟨"154 T-62M: (1, destroyed)", "<li>154 T-62M: (1, destroyed)</li>"⟩] =
      scanGo "2024-01-01" "russia" "russia" true (some "154 T-62M:") [] ∧
    scanGo "2024-01-01" "russia" "russia" true (some "Tanks")
      [⟨"154 T-62M: (1, destroyed)", "<li>154 T-62M: (1, destroyed)</li>"⟩] = [] ∧
    itemMatch ("154 T-62M: (1, destroyed)" : String).data =
      some (154, "T-62M".data) := by
  refine ⟨?_, ?_, by decide⟩
  · have h := block_priority_category "2024-01-01" "russia" "russia" true (some "Tanks")
      ⟨"154 T-62M: (1, destroyed)", "<li>154 T-62M: (1, destroyed)</li>"⟩ []
      "154 T-62M:".data (by decide) (by decide) (by decide) (by decide)
    exact h
  · exact block_priority_category "2024-01-01" "russia" "russia" true (some "Tanks")
      ⟨"154 T-62M: (1, destroyed)", "<li>154 T-62M: (1, destroyed)</li>"⟩ []
      "154 T-62M:".data (by decide) (by decide) (by decide) (by decide)

/-- **C8, counterexample.** The claim fails on the code: while in section
for `"russia"`, a block mentioning `"ukraine"` does *not* stop scanning
when it also matches the section-entry heuristic (which is checked
first).  Concretely, with the in-section state set, the block
`"russia ukraine total"` mentions `"ukraine"`, yet 5 entries are still
produced from the later blocks `"Tanks (10"` and `"5 T-62:"`. -/
theorem section_exit_counter :
    isSubstr "ukraine".data (lowerChars ("russia ukraine total" : String).data) = true ∧
    ¬ scanGo "2024-01-01" "russia" "russia" true none
      [⟨"russia ukraine total", "<p>russia ukraine total</p>"⟩,
       ⟨"Tanks (10", "<p>Tanks (10</p>"⟩,
       ⟨"5 T-62:", "<li>5 T-62:</li>"⟩] = [] ∧
    (scanGo "2024-01-01" "russia" "russia" true none
      [⟨"russia ukraine total", "<p>russia ukraine total</p>"⟩,
       ⟨"Tanks (10", "<p>Tanks (10</p>"⟩,
       ⟨"5 T-62:", "<li>5 T-62:</li>"⟩]).length = 5 := by
  refine ⟨by decide, by decide, by decide⟩

/-- **C8, amended.** While `in_country_section` is set, a block whose text
contains the other country's name stops scanning immediately — *provided*
the block does not itself match the section-entry heuristic (target
country name together with `"total"` or `"losses"`), which is checked
first; no entry is produced from that block or any later block. -/
theorem section_exit_amended (current_date country country_lower : String)
    (cat : Option String) (b : Block) (rest : List Block)
    (hexit : ((isSubstr "ukraine".data (lowerChars b.text.data) && country_lower = "russia") ||
       (isSubstr "russia".data (lowerChars b.text.data) && country_lower = "ukraine")) = true)
    (hentry : (isSubstr country_lower.data (lowerChars b.text.data) &&
      (isSubstr "total".data (lowerChars b.text.data) ||
       isSubstr "losses".data (lowerChars b.text.data))) = false) :
    scanGo current_date country country_lower true cat (b :: rest) = [] := by
  have hne : ¬ b.text = "" := by
    intro h0
    rw [h0] at hexit
    have hd : ("" : String).data = [] := rfl
    rw [hd] at hexit
    simp [lowerChars, isSubstr] at hexit
  simp only [scanGo]
  rw [if_neg hne]
  rw [if_neg (by rw [hentry]; exact Bool.false_ne_true)]
  rw [if_pos (by rw [Bool.true_and]; exact hexit)]

/-- Witness for `section_exit_amended`: a plain mention of `"Ukraine"`
(not matching the entry heuristic) while scanning for `"russia"` halts
extraction; no entries come from the later item block. -/
theorem section_exit_amended_inst :
    scanGo "2024-01-01" "russia" "russia" true (some "Tanks")
      [⟨"Ukraine section", "<p>Ukraine section</p>"⟩,
       ⟨"5 T-62:", "<li>5 T-62:</li>"⟩] = [] :=
  section_exit_amended "2024-01-01" "russia" "russia" (some "Tanks")
    ⟨"Ukraine section", "<p>Ukraine section</p>"⟩
    [⟨"5 T-62:", "<li>5 T-62:</li>"⟩] (by decide) (by decide)

/-- **C6.** In every row of `generate_daily_count_csv`, `type_total`
equals the sum of the row's four status counts and equals the number of
entries sharing the row's (country, equipment_type, date) key; the same
holds for `total` in every row of `generate_totals_by_type_csv` with key
(country, type). -/
theorem row_total_consistency (current_date : String) (entries : List EquipmentEntry) :
    (∀ rows, generate_daily_count_csv current_date entries = some rows →
      ∀ r ∈ rows,
        r.type_total = r.destroyed + r.abandoned + r.captured + r.damaged ∧
        r.type_total = entries.countP (fun e =>
          decide (dailyKey current_date e =
            (r.country, r.equipment_type, r.date_recorded)))) ∧
    (∀ rows, generate_totals_by_type_csv entries = some rows →
      ∀ r ∈ rows,
        r.total = r.destroyed + r.abandoned + r.captured + r.damaged ∧
        r.total = entries.countP (fun e => decide (typeKey e = (r.country, r.type)))) := by
  constructor
  · intro rows hrows r hr
    unfold generate_daily_count_csv at hrows
    cases hagg : aggGo (dailyKey current_date) [] entries with
    | none => rw [hagg] at hrows; cases hrows
    | some m =>
      rw [hagg] at hrows
      injection hrows with hrows
      subst hrows
      rw [List.mem_map] at hr
      obtain ⟨p, hpm, hpr⟩ := hr
      obtain ⟨k, c⟩ := p
      subst hpr
      refine ⟨rfl, ?_⟩
      have hnodup := aggGo_keys_nodup (dailyKey current_date) entries [] m (by simp) hagg
      have hlp := lookupPair_of_mem m k c hnodup hpm
      have hfind := aggGo_find (dailyKey current_date) entries m hagg k
      rw [hlp] at hfind
      split at hfind
      · injection hfind with hf
        have hc : c = cntOfF (dailyKey current_date) entries k :=
          congrArg Prod.snd hf
        have hkey : ((dailyRowOf (k, c)).country, (dailyRowOf (k, c)).equipment_type,
            (dailyRowOf (k, c)).date_recorded) = k := by
          simp [dailyRowOf]
        simp only [hkey]
        have hsum := cntOfF_sum (dailyKey current_date) k entries
          (aggGo_some_statusOk (dailyKey current_date) entries [] m hagg)
        show c.destroyed + c.abandoned + c.captured + c.damaged = _
        rw [hc]
        exact hsum
      · cases hfind
  · intro rows hrows r hr
    unfold generate_totals_by_type_csv at hrows
    cases hagg : aggGo typeKey [] entries with
    | none => rw [hagg] at hrows; cases hrows
    | some m =>
      rw [hagg] at hrows
      injection hrows with hrows
      subst hrows
      rw [List.mem_map] at hr
      obtain ⟨p, hpm, hpr⟩ := hr
      obtain ⟨k, c⟩ := p
      subst hpr
      refine ⟨rfl, ?_⟩
      have hnodup := aggGo_keys_nodup typeKey entries [] m (by simp) hagg
      have hlp := lookupPair_of_mem m k c hnodup hpm
      have hfind := aggGo_find typeKey entries m hagg k
      rw [hlp] at hfind
      split at hfind
      · injection hfind with hf
        have hc : c = cntOfF typeKey entries k := congrArg Prod.snd hf
        have hkey : ((typeRowOf (k, c)).country, (typeRowOf (k, c)).type) = k := by
          simp [typeRowOf]
        simp only [hkey]
        have hsum := cntOfF_sum typeKey k entries
          (aggGo_some_statusOk typeKey entries [] m hagg)
        show c.destroyed + c.abandoned + c.captured + c.damaged = _
        rw [hc]
        exact hsum
      · cases hfind

/-- **C7.** Aggregation is invariant under permutation of the entry list:
success is preserved, and the per-key rows (counts and derived totals) of
both report tables coincide. -/
theorem aggregation_perm_invariant (current_date : String)
    (es es' : List EquipmentEntry) (hperm : es.Perm es') :
    ((generate_daily_count_csv current_date es).isSome =
      (generate_daily_count_csv current_date es').isSome) ∧
    (∀ rows rows', generate_daily_count_csv current_date es = some rows →
      generate_daily_count_csv current_date es' = some rows' →
      ∀ k, findDailyRow rows k = findDailyRow rows' k) ∧
    ((generate_totals_by_type_csv es).isSome =
      (generate_totals_by_type_csv es').isSome) ∧
    (∀ rows rows', generate_totals_by_type_csv es = some rows →
      generate_totals_by_type_csv es' = some rows' →
      ∀ k, findTypeRow rows k = findTypeRow rows' k) := by
  have hall : (∀ e ∈ es, statusOk e.status = true) ↔
      (∀ e ∈ es', statusOk e.status = true) := by
    constructor
    · intro h e he; exact h e (hperm.mem_iff.mpr he)
    · intro h e he; exact h e (hperm.mem_iff.mp he)
  refine ⟨?_, ?_, ?_, ?_⟩
  · unfold generate_daily_count_csv
    simp only [isSome_map]
    cases hb : (aggGo (dailyKey current_date) [] es).isSome <;>
      cases hb' : (aggGo (dailyKey current_date) [] es').isSome <;> try rfl
    · rw [aggGo_isSome_iff] at hb'
      have := (aggGo_isSome_iff (dailyKey current_date) es).mpr (hall.mpr hb')
      rw [this] at hb
      cases hb
    · rw [aggGo_isSome_iff] at hb
      have := (aggGo_isSome_iff (dailyKey current_date) es').mpr (hall.mp hb)
      rw [this] at hb'
      cases hb'
  · intro rows rows' hr hr' k
    unfold generate_daily_count_csv at hr hr'
    cases hagg : aggGo (dailyKey current_date) [] es with
    | none => rw [hagg] at hr; cases hr
    | some m =>
      cases hagg' : aggGo (dailyKey current_date) [] es' with
      | none => rw [hagg'] at hr'; cases hr'
      | some m' =>
        rw [hagg] at hr
        rw [hagg'] at hr'
        injection hr with hr
        injection hr' with hr'
        subst hr
        subst hr'
        rw [findDailyRow_map, findDailyRow_map]
        rw [aggGo_find _ _ _ hagg k, aggGo_find _ _ _ hagg' k]
        rw [perm_any hperm (fun e => decide (dailyKey current_date e = k))]
        rw [perm_cntOfF (dailyKey current_date) hperm k]
  · unfold generate_totals_by_type_csv
    simp only [isSome_map]
    cases hb : (aggGo typeKey [] es).isSome <;>
      cases hb' : (aggGo typeKey [] es').isSome <;> try rfl
    · rw [aggGo_isSome_iff] at hb'
      have := (aggGo_isSome_iff typeKey es).mpr (hall.mpr hb')
      rw [this] at hb
      cases hb
    · rw [aggGo_isSome_iff] at hb
      have := (aggGo_isSome_iff typeKey es').mpr (hall.mp hb)
      rw [this] at hb'
      cases hb'
  · intro rows rows' hr hr' k
    unfold generate_totals_by_type_csv at hr hr'
    cases hagg : aggGo typeKey [] es with
    | none => rw [hagg] at hr; cases hr
    | some m =>
      cases hagg' : aggGo typeKey [] es' with
      | none => rw [hagg'] at hr'; cases hr'
      | some m' =>
        rw [hagg] at hr
        rw [hagg'] at hr'
        injection hr with hr
        injection hr' with hr'
        subst hr
        subst hr'
        rw [findTypeRow_map, findTypeRow_map]
        rw [aggGo_find _ _ _ hagg k, aggGo_find _ _ _ hagg' k]
        rw [perm_any hperm (fun e => decide (typeKey e = k))]
        rw [perm_cntOfF typeKey hperm k]

/-- Witness for `row_total_consistency`, instantiated at a two-entry list
and the first resulting row of each table. -/
theorem row_total_consistency_inst :
    ((DailyRow.mk "russia" "T-62" 1 0 0 0 1 "D").type_total =
      (DailyRow.mk "russia" "T-62" 1 0 0 0 1 "D").destroyed +
      (DailyRow.mk "russia" "T-62" 1 0 0 0 1 "D").abandoned +
      (DailyRow.mk "russia" "T-62" 1 0 0 0 1 "D").captured +
      (DailyRow.mk "russia" "T-62" 1 0 0 0 1 "D").damaged) ∧
    (DailyRow.mk "russia" "T-62" 1 0 0 0 1 "D").type_total =
      List.countP (fun e => decide (dailyKey "D" e =
        ((DailyRow.mk "russia" "T-62" 1 0 0 0 1 "D").country,
         (DailyRow.mk "russia" "T-62" 1 0 0 0 1 "D").equipment_type,
         (DailyRow.mk "russia" "T-62" 1 0 0 0 1 "D").date_recorded)))
        [EquipmentEntry.mk "russia" "T-62" "destroyed" none (some "D"),
         EquipmentEntry.mk "russia" "BMP" "captured" none (some "D")] :=
  (row_total_consistency "D"
      [EquipmentEntry.mk "russia" "T-62" "destroyed" none (some "D"),
       EquipmentEntry.mk "russia" "BMP" "captured" none (some "D")]).1
    [DailyRow.mk "russia" "T-62" 1 0 0 0 1 "D",
     DailyRow.mk "russia" "BMP" 0 0 1 0 1 "D"]
    (by decide)
    (DailyRow.mk "russia" "T-62" 1 0 0 0 1 "D")
    (by decide)

/-- Witness for `aggregation_perm_invariant`, instantiated at a two-entry
list, its transposition, the two concrete row lists, and one key. -/
theorem aggregation_perm_invariant_inst :
    findDailyRow
      [DailyRow.mk "russia" "T-62" 1 0 0 0 1 "D",
       DailyRow.mk "russia" "BMP" 0 0 1 0 1 "D"]
      ("russia", "T-62", "D") =
    findDailyRow
      [DailyRow.mk "russia" "BMP" 0 0 1 0 1 "D",
       DailyRow.mk "russia" "T-62" 1 0 0 0 1 "D"]
      ("russia", "T-62", "D") :=
  ((aggregation_perm_invariant "D"
      [EquipmentEntry.mk "russia" "T-62" "destroyed" none (some "D"),
       EquipmentEntry.mk "russia" "BMP" "captured" none (some "D")]
      [EquipmentEntry.mk "russia" "BMP" "captured" none (some "D"),
       EquipmentEntry.mk "russia" "T-62" "destroyed" none (some "D")]
      (by decide)).2.1
    [DailyRow.mk "russia" "T-62" 1 0 0 0 1 "D",
     DailyRow.mk "russia" "BMP" 0 0 1 0 1 "D"]
    [DailyRow.mk "russia" "BMP" 0 0 1 0 1 "D",
     DailyRow.mk "russia" "T-62" 1 0 0 0 1 "D"]
    (by decide) (by decide)) ("russia", "T-62", "D")

/-- **C10.** The duplicated implementations in `src/scraper.py` and
`src/oryx_wat_scraper/client.py` are extensionally equal: for every input
and fixed observed date, the two `parse_equipment_line` copies return the
same entry list, and the two `generate_daily_count_csv` copies produce
the same rows for every entry list. -/
theorem duplicate_module_equivalence :
    (∀ current_date line country category html_line,
      ScraperPy.parse_equipment_line current_date line country category html_line =
        parse_equipment_line current_date line country category html_line) ∧
    (∀ current_date entries,
      ScraperPy.generate_daily_count_csv current_date entries =
        generate_daily_count_csv current_date entries) :=
  ⟨fun _ _ _ _ _ => rfl, fun _ _ => rfl⟩
